import Mathlib

/-!
Verification of `skill-creator/scripts/package_skill.py`.

Paths are modelled as lists of `/`-separated segments (an absolute resolved
`pathlib.Path` is determined by its `parts`).  `fnmatch.fnmatch` is a Python
standard-library collaborator, not repository code; `globMatch` models it over
the glob vocabulary the spec fixes (`*` spans any characters including
separators, `?` matches exactly one character, every other character is
literal, and the pattern must match the whole string).  Everything else is a
direct transliteration of the Python source.
-/

namespace PackageSkill

/-- Whitespace characters stripped by Python's `str.strip()` (ASCII range). -/
def isPySpace (c : Char) : Bool :=
  c == ' ' || c == '\t' || c == '\n' || c == '\r' || c == '\x0b' || c == '\x0c'

/-- Model of Python `str.strip()`: drop leading and trailing whitespace. -/
def pythonStrip (s : String) : String :=
  String.mk (((s.toList.dropWhile isPySpace).reverse.dropWhile isPySpace).reverse)

/-- Accumulating worker for `pythonSplitlines`; `acc` holds the current line
reversed. -/
def splitlinesAux : List Char → List Char → List String
  | [], acc => if acc.isEmpty then [] else [String.mk acc.reverse]
  | '\r' :: '\n' :: rest, acc => String.mk acc.reverse :: splitlinesAux rest []
  | '\r' :: rest, acc => String.mk acc.reverse :: splitlinesAux rest []
  | '\n' :: rest, acc => String.mk acc.reverse :: splitlinesAux rest []
  | c :: rest, acc => splitlinesAux rest (c :: acc)

/-- Model of Python `str.splitlines()` over the line breaks that can occur in
a rules file: `\n`, `\r`, `\r\n`.  A trailing break does not produce a final
empty line. -/
def pythonSplitlines (s : String) : List String :=
  splitlinesAux s.toList []

/-- Model of Python `s.startswith(pre)`. -/
def pyStartsWith (s pre : String) : Bool :=
  pre.toList.isPrefixOf s.toList

/-- Model of Python `s.endswith(suf)`. -/
def pyEndsWith (s suf : String) : Bool :=
  suf.toList.isSuffixOf s.toList

/-- Model of Python `c in s` for a one-character needle. -/
def pyContainsChar (s : String) (c : Char) : Bool :=
  s.toList.contains c

/-- Worker for `pySplitOnChar`; `acc` holds the current field reversed. -/
def splitCharAux (sep : Char) : List Char → List Char → List String
  | [], acc => [String.mk acc.reverse]
  | c :: rest, acc =>
    if c == sep then String.mk acc.reverse :: splitCharAux sep rest []
    else splitCharAux sep rest (c :: acc)

/-- Model of Python `s.split(sep)` for a one-character separator: always at
least one field, and `"".split(sep) == [""]`. -/
def pySplitOnChar (sep : Char) (s : String) : List String :=
  splitCharAux sep s.toList []

/-- Model of Python `sep.join(parts)` for a one-character separator. -/
def joinChar (sep : Char) : List String → String
  | [] => ""
  | [s] => s
  | s :: rest => s ++ String.mk [sep] ++ joinChar sep rest

/-- Model of Python's `fnmatch.fnmatch` on char lists (pattern first):
`*` matches any run of characters including separators, `?` matches exactly
one character, any other character matches itself; the whole string must be
consumed.  Character classes are outside the spec's pattern vocabulary. -/
def globMatch : List Char → List Char → Bool
  | [], s => s.isEmpty
  | '*' :: ps, s => s.tails.any fun t => globMatch ps t
  | '?' :: ps, s =>
    match s with
    | [] => false
    | _ :: cs => globMatch ps cs
  | c :: ps, s =>
    match s with
    | [] => false
    | a :: cs => c == a && globMatch ps cs

/-- `fnmatch.fnmatch(name, pat)` (POSIX `normcase` is the identity). -/
def fnmatch (name pat : String) : Bool :=
  globMatch pat.toList name.toList

/-- Model of `file_path.relative_to(skill_path)` on resolved absolute paths:
succeeds exactly when the root's segments are a prefix of the file's segments,
returning the remaining segments; otherwise (`ValueError` in Python) `none`. -/
def relativeTo (file root : List String) : Option (List String) :=
  if root.isPrefixOf file then some (file.drop root.length) else none

/-- Model of `path.name`: the last segment (empty for the root path). -/
def pathName (p : List String) : String :=
  p.getLast?.getD ""

/-- Model of `str(rel_path)` for a relative `PurePosixPath`: segments joined
with `/`, and `"."` for the empty relative path. -/
def relPathStr (rel : List String) : String :=
  if rel.isEmpty then "." else joinChar '/' rel

/-- First tier of `should_exclude`: directory patterns ending with `/` match
when the relative path, or the relative path with `/` appended, starts with
the pattern. -/
def dirPatternMatch (relStr pattern : String) : Bool :=
  pyEndsWith pattern "/" &&
    (pyStartsWith relStr pattern || pyStartsWith (relStr ++ "/") pattern)

/-- Last tier of `should_exclude`: when the pattern contains `/`, split the
pattern and the relative path on `/` and glob-match every window of
consecutive relative-path segments, rejoined with `/`, against the pattern
(`range(len(rel_parts) - len(pattern_parts) + 1)` over the window starts). -/
def segmentWindowMatch (relStr pattern : String) : Bool :=
  if pyContainsChar pattern '/' then
    let patternParts := pySplitOnChar '/' pattern
    let relParts := pySplitOnChar '/' relStr
    (List.range (relParts.length + 1 - patternParts.length)).any fun i =>
      fnmatch (joinChar '/' ((relParts.drop i).take patternParts.length)) pattern
  else false

/-- Per-pattern body of the loop in `should_exclude`: the three `if` blocks,
each returning `True` on a match, collapse to a disjunction. -/
def patternMatches (relStr name pattern : String) : Bool :=
  dirPatternMatch relStr pattern || fnmatch relStr pattern || fnmatch name pattern ||
    segmentWindowMatch relStr pattern

/-- Model of `should_exclude(file_path, skill_path, exclude_patterns)`. -/
def should_exclude (file_path skill_path : List String)
    (exclude_patterns : List String) : Bool :=
  if exclude_patterns.isEmpty then false
  else
    match relativeTo file_path skill_path with
    | none => false
    | some rel =>
      exclude_patterns.any fun pattern =>
        patternMatches (relPathStr rel) (pathName file_path) pattern

/-- Body of the `for line in content.splitlines()` loop in `read_skillignore`:
strip the line and append it unless it is empty or a `#` comment. -/
def skillignoreStep (patterns : List String) (line : String) : List String :=
  let l := pythonStrip line
  if l != "" && !pyStartsWith l "#" then patterns ++ [l] else patterns

/-- Model of `read_skillignore`: `none` is an absent file, `Except.error` a
read error; otherwise strip each line of the content, skipping empty lines and
`#` comments. -/
def read_skillignore (ignoreFile : Option (Except Unit String)) : List String :=
  match ignoreFile with
  | none => []
  | some (Except.error _) => []
  | some (Except.ok content) =>
    (pythonSplitlines content).foldl skillignoreStep []

/-- Entry yielded by `skill_path.rglob("*")`: its path segments below
`skill_path` (nonempty for a real filesystem entry) and whether `is_file()`
holds (directories, symlinks to non-files and special files report `false`). -/
structure WalkEntry where
  rel : List String
  isFile : Bool
deriving DecidableEq

/-- State of the zip sink and counters built up by the packaging loop:
`entries` are the archive-internal paths (`arcname`s) in write order. -/
structure BuildResult where
  entries : List (List String)
  filesAdded : Nat
  filesExcluded : Nat
deriving DecidableEq

/-- Body of the `for file_path in skill_path.rglob("*")` loop for one entry:
non-files are skipped, excluded files bump `files_excluded`, and otherwise the
file is written under `file_path.relative_to(skill_path.parent)`; a
`relative_to` failure is the exception path (`none`). -/
def buildStep (skill_path patterns : List String) (res : BuildResult)
    (e : WalkEntry) : Option BuildResult :=
  if e.isFile then
    if should_exclude (skill_path ++ e.rel) skill_path patterns then
      some { res with filesExcluded := res.filesExcluded + 1 }
    else
      match relativeTo (skill_path ++ e.rel) skill_path.dropLast with
      | none => none
      | some a =>
        some { res with
                entries := res.entries ++ [a]
                filesAdded := res.filesAdded + 1 }
  else some res

/-- The packaging loop over the walk, threading the sink state. -/
def buildLoop (skill_path patterns : List String) :
    BuildResult → List WalkEntry → Option BuildResult
  | res, [] => some res
  | res, e :: rest =>
    match buildStep skill_path patterns res e with
    | none => none
    | some res2 => buildLoop skill_path patterns res2 rest

/-- The whole `with zipfile.ZipFile(...)` block: run the loop from an empty
archive; `none` is the exception path caught by `except` in `package_skill`. -/
def buildArchive (skill_path patterns : List String) (walk : List WalkEntry) :
    Option BuildResult :=
  buildLoop skill_path patterns ⟨[], 0, 0⟩ walk

/-- The on-disk state `package_skill` consults: the resolved skill directory
path, the three existence checks, the `.skillignore` content and the walk. -/
structure SkillDir where
  path : List String
  dirExists : Bool
  isDir : Bool
  hasSkillMd : Bool
  ignoreFile : Option (Except Unit String)
  walk : List WalkEntry

/-- Model of `package_skill`: the four guard checks in source order, each
returning `None` before the zip sink is opened, then the build.  The second
component records whether the archive sink was opened for writing;
`validatorOk` is the verdict of the external `validate_skill` collaborator. -/
def package_skill (d : SkillDir) (validatorOk : Bool) :
    Option BuildResult × Bool :=
  if !d.dirExists then (none, false)
  else if !d.isDir then (none, false)
  else if !d.hasSkillMd then (none, false)
  else if !validatorOk then (none, false)
  else
    let patterns := read_skillignore d.ignoreFile
    (buildArchive d.path patterns d.walk, true)

example : fnmatch "src/build/out.txt" "build" = false := by decide
example : fnmatch "out.txt" "build" = false := by decide
example : fnmatch "a/b/c" "a*c" = true := by decide
example : fnmatch "ab" "a?" = true := by decide
example : should_exclude ["h", "sk", "src", "build", "out.txt"] ["h", "sk"] ["build"]
    = false := by decide
example : should_exclude ["h", "sk", "src", "build", "out", "x"] ["h", "sk"] ["build/out"]
    = true := by decide
example : should_exclude ["h", "sk", "build", "x"] ["h", "sk"] ["build/"]
    = true := by decide
example : read_skillignore (some (Except.ok "  a \n#c\n\nb\r\n")) = ["a", "b"] := by decide
example :
    buildArchive ["home", "sk"] ["build/"]
      [⟨["SKILL.md"], true⟩, ⟨["build"], false⟩, ⟨["build", "out.bin"], true⟩,
        ⟨["notes.md"], true⟩]
    = some ⟨[["sk", "SKILL.md"], ["sk", "notes.md"]], 2, 1⟩ := by decide
example :
    package_skill ⟨["home", "sk"], true, true, false, none, []⟩ true
    = (none, false) := by decide

/-- C9: for every file and root, `should_exclude` returns `false` when the
pattern list is empty. -/
theorem should_exclude_empty_patterns (file_path skill_path : List String) :
    should_exclude file_path skill_path [] = false := rfl

/-- C8: for every file whose absolute path cannot be relativized against the
root and every pattern list, `should_exclude` returns `false` (total, so it
cannot raise). -/
theorem should_exclude_outside_root (file_path skill_path patterns : List String)
    (h : relativeTo file_path skill_path = none) :
    should_exclude file_path skill_path patterns = false := by
  unfold should_exclude
  rw [h]
  split <;> rfl

/-- Witness for `should_exclude_outside_root` at a file outside the root. -/
theorem should_exclude_outside_root_witness :
    should_exclude ["a", "f.txt"] ["b"] ["*"] = false :=
  should_exclude_outside_root ["a", "f.txt"] ["b"] ["*"] (by decide)

/-- C3: for every pattern `p` ending in `/` that is in the pattern list, and
every file whose relative path (or relative path followed by `/`) starts with
`p`, `should_exclude` returns `true`. -/
theorem should_exclude_dir_pattern (file_path skill_path patterns : List String)
    (p : String) (hp : p ∈ patterns) (hdir : pyEndsWith p "/" = true)
    (rel : List String) (hrel : relativeTo file_path skill_path = some rel)
    (hstart : pyStartsWith (relPathStr rel) p = true ∨
      pyStartsWith (relPathStr rel ++ "/") p = true) :
    should_exclude file_path skill_path patterns = true := by
  unfold should_exclude
  rw [hrel]
  have hemp : patterns.isEmpty = false :=
    List.isEmpty_eq_false.mpr (List.ne_nil_of_mem hp)
  rw [hemp]
  have hmatch : patternMatches (relPathStr rel) (pathName file_path) p = true := by
    unfold patternMatches dirPatternMatch
    rcases hstart with h | h <;> simp [hdir, h]
  simp only [Bool.false_eq_true, if_false]
  exact List.any_eq_true.mpr ⟨p, hp, hmatch⟩

/-- Witness for `should_exclude_dir_pattern`: pattern `build/` excludes
`build/out.bin`. -/
theorem should_exclude_dir_pattern_witness :
    should_exclude ["h", "sk", "build", "out.bin"] ["h", "sk"] ["build/"] = true :=
  should_exclude_dir_pattern ["h", "sk", "build", "out.bin"] ["h", "sk"] ["build/"]
    "build/" (by decide) (by decide) ["build", "out.bin"] (by decide)
    (Or.inr (by decide))

/-- C7: `should_exclude` is invariant under permutation of the pattern list. -/
theorem should_exclude_perm_invariant (file_path skill_path : List String)
    (l₁ l₂ : List String) (hperm : l₁.Perm l₂) :
    should_exclude file_path skill_path l₁ = should_exclude file_path skill_path l₂ := by
  unfold should_exclude
  have hemp : l₁.isEmpty = l₂.isEmpty := by
    have hl := hperm.length_eq
    cases l₁ <;> cases l₂ <;> simp_all
  have hany : ∀ g : String → Bool, l₁.any g = l₂.any g := by
    intro g
    rw [Bool.eq_iff_iff]
    simp only [List.any_eq_true]
    constructor
    · rintro ⟨x, hx, hgx⟩
      exact ⟨x, hperm.mem_iff.mp hx, hgx⟩
    · rintro ⟨x, hx, hgx⟩
      exact ⟨x, hperm.mem_iff.mpr hx, hgx⟩
  rw [hemp]
  cases hi : l₂.isEmpty with
  | true => simp
  | false =>
    simp only [Bool.false_eq_true, if_false]
    cases hr : relativeTo file_path skill_path with
    | none => rfl
    | some rel => exact hany _

/-- Witness for `should_exclude_perm_invariant` on a two-element swap. -/
theorem should_exclude_perm_invariant_witness :
    should_exclude ["r", "x"] ["r"] ["a", "b"] = should_exclude ["r", "x"] ["r"] ["b", "a"] :=
  should_exclude_perm_invariant ["r", "x"] ["r"] ["a", "b"] ["b", "a"]
    (List.Perm.swap "b" "a" [])

/-- C10: `should_exclude` is monotone in the pattern list: growing the list
can only turn inclusion into exclusion, never the reverse. -/
theorem should_exclude_monotone (file_path skill_path : List String)
    (l₁ l₂ : List String) (hsub : l₁ ⊆ l₂)
    (h : should_exclude file_path skill_path l₁ = true) :
    should_exclude file_path skill_path l₂ = true := by
  unfold should_exclude at h ⊢
  cases hemp : l₁.isEmpty with
  | true => rw [hemp] at h; simp at h
  | false =>
    rw [hemp] at h
    simp only [Bool.false_eq_true, if_false] at h
    cases hrel : relativeTo file_path skill_path with
    | none => rw [hrel] at h; simp at h
    | some rel =>
      rw [hrel] at h
      obtain ⟨x, hx, hgx⟩ := List.any_eq_true.mp h
      have hx2 := hsub hx
      have hne : l₂.isEmpty = false :=
        List.isEmpty_eq_false.mpr (List.ne_nil_of_mem hx2)
      rw [hne]
      simp only [Bool.false_eq_true, if_false]
      exact List.any_eq_true.mpr ⟨x, hx2, hgx⟩

/-- Witness for `should_exclude_monotone`: `["a"] ⊆ ["a", "b"]` and the file
`a` stays excluded. -/
theorem should_exclude_monotone_witness :
    should_exclude ["r", "a"] ["r"] ["a", "b"] = true :=
  should_exclude_monotone ["r", "a"] ["r"] ["a"] ["a", "b"] (by decide) (by decide)

/-- C1 (amended): segment-window matching for multi-segment patterns.  For
every pattern `p` containing `/` that is in the list, if some contiguous
window of `k` consecutive relative-path segments (where `k` is the number of
`/`-separated segments of `p`), rejoined with `/`, glob-matches `p`, then
`should_exclude` returns `true`. -/
theorem should_exclude_segment_window (file_path skill_path patterns : List String)
    (p : String) (hp : p ∈ patterns) (hslash : pyContainsChar p '/' = true)
    (rel : List String) (hrel : relativeTo file_path skill_path = some rel)
    (i : Nat)
    (hik : i + (pySplitOnChar '/' p).length
      ≤ (pySplitOnChar '/' (relPathStr rel)).length)
    (hm : fnmatch
      (joinChar '/' (((pySplitOnChar '/' (relPathStr rel)).drop i).take
        (pySplitOnChar '/' p).length)) p = true) :
    should_exclude file_path skill_path patterns = true := by
  unfold should_exclude
  rw [hrel]
  have hemp : patterns.isEmpty = false :=
    List.isEmpty_eq_false.mpr (List.ne_nil_of_mem hp)
  rw [hemp]
  have hwin : segmentWindowMatch (relPathStr rel) p = true := by
    unfold segmentWindowMatch
    rw [hslash]
    simp only [if_true]
    apply List.any_eq_true.mpr
    refine ⟨i, List.mem_range.mpr ?_, hm⟩
    omega
  have hmatch : patternMatches (relPathStr rel) (pathName file_path) p = true := by
    unfold patternMatches
    rw [hwin]
    simp
  simp only [Bool.false_eq_true, if_false]
  exact List.any_eq_true.mpr ⟨p, hp, hmatch⟩

/-- Witness for `should_exclude_segment_window`: the two-segment pattern
`build/out` matches the middle window of `src/build/out/x.txt`. -/
theorem should_exclude_segment_window_witness :
    should_exclude ["h", "sk", "src", "build", "out", "x.txt"] ["h", "sk"]
      ["build/out"] = true :=
  should_exclude_segment_window ["h", "sk", "src", "build", "out", "x.txt"]
    ["h", "sk"] ["build/out"] "build/out" (by decide) (by decide)
    ["src", "build", "out", "x.txt"] (by decide) 1 (by decide) (by decide)

/-- C1 fails as stated for one-segment patterns: with pattern `build` and
relative path `src/build/out.txt`, the size-one window `build` glob-matches
the pattern, yet `should_exclude` returns `false` (the window tier only runs
when the pattern contains `/`). -/
theorem one_segment_window_not_matched :
    relativeTo ["home", "sk", "src", "build", "out.txt"] ["home", "sk"]
        = some ["src", "build", "out.txt"] ∧
    pySplitOnChar '/' (relPathStr ["src", "build", "out.txt"])
        = ["src", "build", "out.txt"] ∧
    (pySplitOnChar '/' "build").length = 1 ∧
    fnmatch (joinChar '/' ((["src", "build", "out.txt"].drop 1).take 1)) "build"
        = true ∧
    should_exclude ["home", "sk", "src", "build", "out.txt"] ["home", "sk"]
        ["build"] = false := by decide

/-- Helper: the `read_skillignore` loop keeps, in order, every stripped line
that is non-empty and not a comment. -/
theorem skillignore_foldl_eq (lines acc : List String) :
    lines.foldl skillignoreStep acc
      = acc ++ (lines.map pythonStrip).filter
          (fun l => l != "" && !pyStartsWith l "#") := by
  induction lines generalizing acc with
  | nil => simp
  | cons a t ih =>
    simp only [List.foldl_cons, List.map_cons, List.filter_cons]
    rw [ih]
    cases hc : (pythonStrip a != "" && !pyStartsWith (pythonStrip a) "#") with
    | true => simp [skillignoreStep, hc, List.append_assoc]
    | false => simp [skillignoreStep, hc]

/-- C5: `read_skillignore` returns exactly the stripped, non-empty,
non-comment lines of the rules file in order, and the empty list when the
file is absent or reading fails. -/
theorem read_skillignore_spec (content : String) :
    read_skillignore none = [] ∧
    (∀ e : Unit, read_skillignore (some (Except.error e)) = []) ∧
    read_skillignore (some (Except.ok content))
      = ((pythonSplitlines content).map pythonStrip).filter
          (fun l => l != "" && !pyStartsWith l "#") := by
  refine ⟨rfl, fun _ => rfl, ?_⟩
  show (pythonSplitlines content).foldl skillignoreStep []
      = ((pythonSplitlines content).map pythonStrip).filter
          (fun l => l != "" && !pyStartsWith l "#")
  rw [skillignore_foldl_eq]
  simp

/-- Helper: a list is `isPrefixOf` any extension of itself. -/
theorem isPrefixOf_append_self : ∀ (l t : List String), l.isPrefixOf (l ++ t) = true
  | [], _ => by simp [List.isPrefixOf]
  | a :: l, t => by simp [List.isPrefixOf, isPrefixOf_append_self l t]

/-- Helper: relativizing `skill_path ++ rest` against the parent of a
nonempty `skill_path` yields the skill directory's base name followed by
`rest`. -/
theorem relativeTo_append_dropLast (sp : List String) (h : sp ≠ [])
    (rest : List String) :
    relativeTo (sp ++ rest) sp.dropLast = some (sp.getLast h :: rest) := by
  have hsplit : sp.dropLast ++ (sp.getLast h :: rest) = sp ++ rest := by
    conv_rhs => rw [← List.dropLast_append_getLast h]
    simp
  unfold relativeTo
  rw [← hsplit]
  rw [if_pos (isPrefixOf_append_self _ _)]
  rw [List.drop_left]

/-- Helper: for a nonempty skill path, one loop step never fails and updates
the sink state by the three-way case split of the source. -/
theorem buildStep_eq (sp pats : List String) (h : sp ≠ []) (res : BuildResult)
    (e : WalkEntry) :
    buildStep sp pats res e
      = some (if e.isFile then
            (if should_exclude (sp ++ e.rel) sp pats then
              { res with filesExcluded := res.filesExcluded + 1 }
            else
              { res with
                  entries := res.entries ++ [sp.getLast h :: e.rel]
                  filesAdded := res.filesAdded + 1 })
          else res) := by
  unfold buildStep
  rw [relativeTo_append_dropLast sp h e.rel]
  cases hf : e.isFile with
  | false => simp [hf]
  | true =>
    cases hx : should_exclude (sp ++ e.rel) sp pats with
    | true => simp [hf, hx]
    | false => simp [hf, hx]

/-- Helper: one loop step increments `filesAdded + filesExcluded` exactly when
the entry is a regular file. -/
theorem buildStep_counts (sp pats : List String) (res res2 : BuildResult)
    (e : WalkEntry) (hs : buildStep sp pats res e = some res2) :
    res2.filesAdded + res2.filesExcluded
      = res.filesAdded + res.filesExcluded + (if e.isFile then 1 else 0) := by
  unfold buildStep at hs
  cases hf : e.isFile with
  | false =>
    rw [hf] at hs
    simp only [Bool.false_eq_true, if_false, Option.some.injEq] at hs
    simp [← hs]
  | true =>
    rw [hf] at hs
    simp only [if_true] at hs
    cases hx : should_exclude (sp ++ e.rel) sp pats with
    | true =>
      rw [hx] at hs
      simp only [if_true, Option.some.injEq] at hs
      simp [← hs]
      omega
    | false =>
      rw [hx] at hs
      simp only [Bool.false_eq_true, if_false] at hs
      cases hr : relativeTo (sp ++ e.rel) sp.dropLast with
      | none => rw [hr] at hs; simp at hs
      | some a =>
        rw [hr] at hs
        simp only [Option.some.injEq] at hs
        simp [← hs]
        omega

/-- Helper: over a whole walk, `filesAdded + filesExcluded` grows by the
number of regular-file entries. -/
theorem buildLoop_counts (sp pats : List String) :
    ∀ (walk : List WalkEntry) (res res2 : BuildResult),
      buildLoop sp pats res walk = some res2 →
      res2.filesAdded + res2.filesExcluded
        = res.filesAdded + res.filesExcluded
          + (walk.filter fun e => e.isFile).length := by
  intro walk
  induction walk with
  | nil =>
    intro res res2 hb
    simp only [buildLoop, Option.some.injEq] at hb
    simp [← hb]
  | cons e rest ih =>
    intro res res2 hb
    simp only [buildLoop] at hb
    cases hs : buildStep sp pats res e with
    | none => rw [hs] at hb; simp at hb
    | some r2 =>
      rw [hs] at hb
      have h2 := ih r2 res2 hb
      have h1 := buildStep_counts sp pats res r2 e hs
      rw [List.filter_cons]
      cases hf : e.isFile with
      | true => rw [hf] at h1; simp at h1 ⊢; omega
      | false => rw [hf] at h1; simp at h1 ⊢; omega

/-- Helper: over a whole walk with a nonempty skill path, the archive entries
written are exactly the non-excluded regular files, each under the skill
directory's base name. -/
theorem buildLoop_entries (sp pats : List String) (h : sp ≠ []) :
    ∀ (walk : List WalkEntry) (res res2 : BuildResult),
      buildLoop sp pats res walk = some res2 →
      res2.entries = res.entries ++
        (walk.filter fun e =>
          e.isFile && !should_exclude (sp ++ e.rel) sp pats).map
          (fun e => sp.getLast h :: e.rel) := by
  intro walk
  induction walk with
  | nil =>
    intro res res2 hb
    simp only [buildLoop, Option.some.injEq] at hb
    simp [← hb]
  | cons e rest ih =>
    intro res res2 hb
    simp only [buildLoop] at hb
    rw [buildStep_eq sp pats h res e] at hb
    have h2 := ih _ res2 hb
    rw [List.filter_cons, h2]
    cases hf : e.isFile with
    | false => simp [hf]
    | true =>
      cases hx : should_exclude (sp ++ e.rel) sp pats with
      | true => simp [hf, hx]
      | false => simp [hf, hx]

/-- C4: when the build completes successfully, `filesAdded + filesExcluded`
equals the number of regular files under the source directory; non-file walk
entries are not counted. -/
theorem build_counts_regular_files (skill_path patterns : List String)
    (walk : List WalkEntry) (res : BuildResult)
    (hb : buildArchive skill_path patterns walk = some res) :
    res.filesAdded + res.filesExcluded = (walk.filter fun e => e.isFile).length := by
  have hc := buildLoop_counts skill_path patterns walk ⟨[], 0, 0⟩ res hb
  simpa using hc

/-- Witness for `build_counts_regular_files` on a four-entry walk with one
directory and one excluded file. -/
theorem build_counts_regular_files_witness :
    (⟨[["sk", "SKILL.md"], ["sk", "notes.md"]], 2, 1⟩ : BuildResult).filesAdded
      + (⟨[["sk", "SKILL.md"], ["sk", "notes.md"]], 2, 1⟩ : BuildResult).filesExcluded
      = (([⟨["SKILL.md"], true⟩, ⟨["build"], false⟩, ⟨["build", "out.bin"], true⟩,
          ⟨["notes.md"], true⟩] : List WalkEntry).filter fun e => e.isFile).length :=
  build_counts_regular_files ["home", "sk"] ["build/"] _ _ (by decide)

/-- C2: when the build completes successfully over a resolved (nonempty)
skill path, every archive entry is the corresponding file's path relative to
the parent of the skill directory, and hence starts with the skill
directory's base name. -/
theorem build_entries_under_skill_name (skill_path patterns : List String)
    (walk : List WalkEntry) (res : BuildResult) (h : skill_path ≠ [])
    (hb : buildArchive skill_path patterns walk = some res) :
    res.entries
      = (walk.filter fun e =>
          e.isFile && !should_exclude (skill_path ++ e.rel) skill_path patterns).map
          (fun e => skill_path.getLast h :: e.rel)
    ∧ (∀ e : WalkEntry,
        relativeTo (skill_path ++ e.rel) skill_path.dropLast
          = some (skill_path.getLast h :: e.rel))
    ∧ ∀ a ∈ res.entries, a.head? = skill_path.getLast? := by
  have hent := buildLoop_entries skill_path patterns h walk ⟨[], 0, 0⟩ res hb
  simp only [List.nil_append] at hent
  refine ⟨hent, fun e => relativeTo_append_dropLast _ h _, ?_⟩
  intro a ha
  rw [hent] at ha
  obtain ⟨e, _, rfl⟩ := List.mem_map.mp ha
  rw [List.getLast?_eq_getLast_of_ne_nil h]
  rfl

/-- Witness for `build_entries_under_skill_name` on the scenario walk. -/
theorem build_entries_under_skill_name_witness :
    (⟨[["sk", "SKILL.md"], ["sk", "notes.md"]], 2, 1⟩ : BuildResult).entries
      = (([⟨["SKILL.md"], true⟩, ⟨["build"], false⟩, ⟨["build", "out.bin"], true⟩,
          ⟨["notes.md"], true⟩] : List WalkEntry).filter fun e =>
          e.isFile && !should_exclude (["home", "sk"] ++ e.rel) ["home", "sk"] ["build/"]).map
          (fun e => (["home", "sk"].getLast (by decide)) :: e.rel)
    ∧ (∀ e : WalkEntry,
        relativeTo (["home", "sk"] ++ e.rel) (["home", "sk"] : List String).dropLast
          = some ((["home", "sk"].getLast (by decide)) :: e.rel))
    ∧ ∀ a ∈ (⟨[["sk", "SKILL.md"], ["sk", "notes.md"]], 2, 1⟩ : BuildResult).entries,
        a.head? = (["home", "sk"] : List String).getLast? :=
  build_entries_under_skill_name ["home", "sk"] ["build/"]
    [⟨["SKILL.md"], true⟩, ⟨["build"], false⟩, ⟨["build", "out.bin"], true⟩,
      ⟨["notes.md"], true⟩]
    ⟨[["sk", "SKILL.md"], ["sk", "notes.md"]], 2, 1⟩ (by decide) (by decide)

/-- C6: whenever the source path is missing, not a directory, lacks
`SKILL.md`, or the validator fails, `package_skill` returns `None` and the
archive sink was never opened for writing. -/
theorem package_skill_guard_failures (d : SkillDir) (validatorOk : Bool)
    (h : d.dirExists = false ∨ d.isDir = false ∨ d.hasSkillMd = false ∨
      validatorOk = false) :
    package_skill d validatorOk = (none, false) := by
  unfold package_skill
  cases hd : d.dirExists <;> cases hi : d.isDir <;> cases hm : d.hasSkillMd <;>
    cases hv : validatorOk <;> simp_all

/-- Witness for `package_skill_guard_failures`: a directory without
`SKILL.md`. -/
theorem package_skill_guard_failures_witness :
    package_skill ⟨["home", "sk"], true, true, false, none, []⟩ true = (none, false) :=
  package_skill_guard_failures ⟨["home", "sk"], true, true, false, none, []⟩ true
    (by decide)

end PackageSkill
